import Mathlib

/-!
Verification development for the document-to-JSON extraction pipeline
(`document_extractor_app.py`, `pdf_processor.py`, `excel_processor.py`).

The Python code is shallowly embedded:

* Python string primitives (`str.strip`, `str.lower`, `str.startswith`,
  `pathlib.PurePath.stem` / `.suffix`) are modelled as executable Lean
  functions over `List Char`.
* `json.loads` is modelled by `parseJson`, a recursive-descent parser for
  the JSON grammar; on failure it returns an error message, as the Python
  exception carries one.
* The model round-trip of `extract_with_gemini` is the external capability;
  the embedded `extract_with_gemini` is a function of the model completion
  text and covers the post-processing in lines 74-86 of
  `document_extractor_app.py`.
* The batch loops of `pdf_processor.py` and `excel_processor.py` are
  textually identical up to a handful of strings; they are embedded once,
  parameterised by a `FmtCfg` record carrying exactly those strings, with
  `pdfCfg` and `excelCfg` the two instantiations.  Filesystem reads and
  JSON writes are supplied by a `World` record; the Gemini call is a
  function argument exactly as in the Python code.
-/

/-! ## Python string primitives -/

/-- Whitespace characters removed by Python `str.strip()` (ASCII range). -/
def pyWs (c : Char) : Bool :=
  c = ' ' || c = '\t' || c = '\n' || c = '\r' || c = '\x0B' || c = '\x0C'

/-- Drop characters satisfying `p` from both ends, as Python `str.strip(chars)`. -/
def stripBothChars (p : Char → Bool) (cs : List Char) : List Char :=
  ((cs.dropWhile p).reverse.dropWhile p).reverse

/-- Python `str.strip()`. -/
def pyStrip (s : String) : String := ⟨stripBothChars pyWs s.data⟩

/-- The backtick character. -/
def tickChar : Char := Char.ofNat 96

/-- Python `str.strip` with the backtick character set. -/
def stripTicks (s : String) : String := ⟨stripBothChars (fun c => c = tickChar) s.data⟩

/-- Python `str.lower()` (ASCII part, all that the code exercises). -/
def pyLower (s : String) : String := ⟨s.data.map Char.toLower⟩

/-- Python `str.startswith`. -/
def strStarts (s pre : String) : Bool := pre.data.isPrefixOf s.data

/-- Python `str.endswith`. -/
def strEnds (s suf : String) : Bool := suf.data.isSuffixOf s.data

/-- Python slicing `s[n:]`. -/
def strDrop (s : String) (n : Nat) : String := ⟨s.data.drop n⟩

/-- Index of the last dot in a character list, if any. -/
def lastDotPos (cs : List Char) : Option Nat :=
  match cs.reverse.findIdx? (fun c => c = '.') with
  | some j => some (cs.length - 1 - j)
  | none => none

/-- `pathlib.PurePath(name).stem` for a base name: the name without its final
extension; a dot at position `0` or in final position yields no extension. -/
def pyStem (name : String) : String :=
  match lastDotPos name.data with
  | some i => if 0 < i ∧ i < name.data.length - 1 then ⟨name.data.take i⟩ else name
  | none => name

/-- `pathlib.PurePath(name).suffix` for a base name. -/
def pySuffix (name : String) : String :=
  match lastDotPos name.data with
  | some i => if 0 < i ∧ i < name.data.length - 1 then ⟨name.data.drop i⟩ else ""
  | none => ""

/-! ## JSON values and the model of `json.loads` -/

/-- JSON values.  Numeric literals are kept verbatim, which is all the code
needs: no arithmetic is ever performed on extracted numbers. -/
inductive Json where
  | null : Json
  | bool (b : Bool) : Json
  | num (lit : String) : Json
  | str (s : String) : Json
  | arr (elems : List Json) : Json
  | obj (fields : List (String × Json)) : Json
deriving Repr

/-- JSON insignificant whitespace. -/
def jsonWs (c : Char) : Bool := c = ' ' || c = '\t' || c = '\n' || c = '\r'

/-- Value of a hexadecimal digit. -/
def hexDigitVal (c : Char) : Option Nat :=
  if '0' ≤ c ∧ c ≤ '9' then some (c.toNat - '0'.toNat)
  else if 'a' ≤ c ∧ c ≤ 'f' then some (c.toNat - 'a'.toNat + 10)
  else if 'A' ≤ c ∧ c ≤ 'F' then some (c.toNat - 'A'.toNat + 10)
  else none

/-- Parse the body of a JSON string literal (the opening quote already
consumed), handling the escape sequences of the JSON grammar. -/
def parseStrBody : Nat → List Char → List Char → Except String (String × List Char)
  | 0, _, _ => .error "Unterminated string"
  | _ + 1, [], _ => .error "Unterminated string"
  | fuel + 1, c :: rest, acc =>
    if c = '"' then .ok (⟨acc.reverse⟩, rest)
    else if c = '\\' then
      match rest with
      | [] => .error "Unterminated string"
      | e :: rest2 =>
        if e = '"' then parseStrBody fuel rest2 ('"' :: acc)
        else if e = '\\' then parseStrBody fuel rest2 ('\\' :: acc)
        else if e = '/' then parseStrBody fuel rest2 ('/' :: acc)
        else if e = 'b' then parseStrBody fuel rest2 ('\x08' :: acc)
        else if e = 'f' then parseStrBody fuel rest2 ('\x0C' :: acc)
        else if e = 'n' then parseStrBody fuel rest2 ('\n' :: acc)
        else if e = 'r' then parseStrBody fuel rest2 ('\r' :: acc)
        else if e = 't' then parseStrBody fuel rest2 ('\t' :: acc)
        else if e = 'u' then
          match rest2 with
          | h1 :: h2 :: h3 :: h4 :: rest3 =>
            match hexDigitVal h1, hexDigitVal h2, hexDigitVal h3, hexDigitVal h4 with
            | some a, some b, some c2, some d =>
                parseStrBody fuel rest3 (Char.ofNat (((a * 16 + b) * 16 + c2) * 16 + d) :: acc)
            | _, _, _, _ => .error "Invalid hexadecimal escape"
          | _ => .error "Invalid hexadecimal escape"
        else .error "Invalid escape"
    else parseStrBody fuel rest (c :: acc)

/-- Split off a maximal run of decimal digits. -/
def takeDigits (cs : List Char) : List Char × List Char :=
  (cs.takeWhile Char.isDigit, cs.dropWhile Char.isDigit)

/-- Optional fractional part `.digits` of a JSON number literal. -/
def parseFracPart (cs : List Char) : List Char × List Char :=
  match cs with
  | '.' :: r =>
    let (ds, r2) := takeDigits r
    if ds.isEmpty then ([], cs) else ('.' :: ds, r2)
  | _ => ([], cs)

/-- Optional exponent part of a JSON number literal. -/
def parseExpPart (cs : List Char) : List Char × List Char :=
  match cs with
  | c :: r =>
    if c = 'e' || c = 'E' then
      let (sgn, r2) :=
        match r with
        | s :: r3 => if s = '+' || s = '-' then ([s], r3) else (([] : List Char), r)
        | [] => (([] : List Char), r)
      let (ds, r3) := takeDigits r2
      if ds.isEmpty then ([], cs) else (c :: (sgn ++ ds), r3)
    else ([], cs)
  | [] => ([], cs)

/-- Parse a JSON number literal; leading zeros are rejected as in the JSON
grammar (`0` or a nonzero digit followed by digits). -/
def parseNumLit (cs : List Char) : Except String (String × List Char) :=
  let (sgn, cs1) :=
    match cs with
    | '-' :: r => (['-'], r)
    | _ => (([] : List Char), cs)
  match cs1 with
  | [] => .error "Expecting value"
  | c :: r =>
    if c = '0' then
      let (f, r2) := parseFracPart r
      let (ex, r3) := parseExpPart r2
      .ok (⟨sgn ++ ['0'] ++ f ++ ex⟩, r3)
    else if c.isDigit then
      let (ds, r1) := takeDigits cs1
      let (f, r2) := parseFracPart r1
      let (ex, r3) := parseExpPart r2
      .ok (⟨sgn ++ ds ++ f ++ ex⟩, r3)
    else .error "Expecting value"

mutual

/-- Parse one JSON value from the front of the input. -/
def parseVal : Nat → List Char → Except String (Json × List Char)
  | 0, _ => .error "Too deeply nested"
  | fuel + 1, cs =>
    match cs.dropWhile jsonWs with
    | [] => .error "Expecting value"
    | c :: rest =>
      if c = '"' then
        match parseStrBody (rest.length + 1) rest [] with
        | .ok (s, r) => .ok (.str s, r)
        | .error e => .error e
      else if c = '{' then
        match rest.dropWhile jsonWs with
        | '}' :: r => .ok (.obj [], r)
        | _ => parseObjRest fuel rest []
      else if c = '[' then
        match rest.dropWhile jsonWs with
        | ']' :: r => .ok (.arr [], r)
        | _ => parseArrRest fuel rest []
      else if ['t', 'r', 'u', 'e'].isPrefixOf (c :: rest) then
        .ok (.bool true, (c :: rest).drop 4)
      else if ['f', 'a', 'l', 's', 'e'].isPrefixOf (c :: rest) then
        .ok (.bool false, (c :: rest).drop 5)
      else if ['n', 'u', 'l', 'l'].isPrefixOf (c :: rest) then
        .ok (.null, (c :: rest).drop 4)
      else if c = '-' ∨ c.isDigit then
        match parseNumLit (c :: rest) with
        | .ok (l, r) => .ok (.num l, r)
        | .error e => .error e
      else .error "Expecting value"

/-- Parse the members of a non-empty JSON array, accumulating in reverse. -/
def parseArrRest : Nat → List Char → List Json → Except String (Json × List Char)
  | 0, _, _ => .error "Too deeply nested"
  | fuel + 1, cs, acc =>
    match parseVal fuel cs with
    | .error e => .error e
    | .ok (v, r) =>
      match r.dropWhile jsonWs with
      | ',' :: r2 => parseArrRest fuel r2 (v :: acc)
      | ']' :: r2 => .ok (.arr (v :: acc).reverse, r2)
      | _ => .error "Expecting comma delimiter"

/-- Parse the members of a non-empty JSON object, accumulating in reverse. -/
def parseObjRest : Nat → List Char → List (String × Json) → Except String (Json × List Char)
  | 0, _, _ => .error "Too deeply nested"
  | fuel + 1, cs, acc =>
    match cs.dropWhile jsonWs with
    | '"' :: rest =>
      match parseStrBody (rest.length + 1) rest [] with
      | .error e => .error e
      | .ok (k, r) =>
        match r.dropWhile jsonWs with
        | ':' :: r2 =>
          match parseVal fuel r2 with
          | .error e => .error e
          | .ok (v, r3) =>
            match r3.dropWhile jsonWs with
            | ',' :: r4 => parseObjRest fuel r4 ((k, v) :: acc)
            | '}' :: r4 => .ok (.obj ((k, v) :: acc).reverse, r4)
            | _ => .error "Expecting comma delimiter"
        | _ => .error "Expecting colon delimiter"
    | _ => .error "Expecting property name enclosed in double quotes"

end

/-- Model of `json.loads`: parse one JSON document, requiring that nothing
but whitespace follows it, and report a diagnostic message on failure. -/
def parseJson (s : String) : Except String Json :=
  match parseVal (s.data.length + 1) s.data with
  | .error e => .error e
  | .ok (v, rest) =>
    if (rest.dropWhile jsonWs).isEmpty then .ok v else .error "Extra data"

/-! ## `extract_with_gemini` completion post-processing
(`document_extractor_app.py` lines 74-86) -/

/-- The triple-backtick fence delimiter. -/
def fenceTok : String := "\x60\x60\x60"

/-- Lines 74-81: strip whitespace; if the completion starts with a fence,
strip all backticks from both ends and, when the remainder starts with the
case-insensitive token `json`, drop those four characters and strip again. -/
def cleanCompletion (resp : String) : String :=
  let t := pyStrip resp
  if strStarts t fenceTok then
    let u := stripTicks t
    if strStarts (pyLower u) "json" then pyStrip (strDrop u 4) else u
  else t

/-- The ErrorRecord shape returned when the cleaned completion fails to
parse: `{error: "Failed to parse JSON: " + msg, raw: cleaned}`. -/
def jsonErrorRecord (e raw : String) : Json :=
  .obj [("error", .str ("Failed to parse JSON: " ++ e)), ("raw", .str raw)]

/-- Lines 74-86 of `document_extractor_app.py`, as a function of the model
completion text: clean the completion, then `json.loads` it, returning the
parsed value or an ErrorRecord. -/
def extract_with_gemini (resp : String) : Json :=
  match parseJson (cleanCompletion resp) with
  | .ok v => v
  | .error e => jsonErrorRecord e (cleanCompletion resp)

/-! ## Filesystem trees and file discovery -/

/-- A directory tree entry: a plain file or a named subdirectory. -/
inductive FsEntry where
  | file (name : String) : FsEntry
  | dir (name : String) (entries : List FsEntry) : FsEntry
deriving Repr

/-- Names of the plain files among a directory's immediate entries. -/
def filesOf (es : List FsEntry) : List String :=
  es.filterMap fun e =>
    match e with
    | .file n => some n
    | .dir _ _ => none

mutual

/-- Paths contributed by one entry of a level: nothing for a plain file,
the recursively walked paths of a directory prefixed with its name. -/
def entryWalk : FsEntry → List (List String)
  | .file _ => []
  | .dir n sub => ((filesOf sub).map (fun m => [m]) ++ dirsWalk sub).map (fun p => n :: p)

/-- Paths (as segment lists) of the files below the subdirectories of a
level, in `os.walk` top-down order: each subdirectory contributes its own
files first, then its subdirectories recursively. -/
def dirsWalk : List FsEntry → List (List String)
  | [] => []
  | e :: es => entryWalk e ++ dirsWalk es

end

/-- All file paths of a tree in `os.walk` top-down order (the root's files
first, then each subdirectory recursively). -/
def walkPaths (es : List FsEntry) : List (List String) :=
  (filesOf es).map (fun n => [n]) ++ dirsWalk es

/-- The proposition that `p` is the path of a file somewhere in the tree. -/
inductive IsFilePath : List FsEntry → List String → Prop where
  | here {es : List FsEntry} {n : String} (h : FsEntry.file n ∈ es) : IsFilePath es [n]
  | nested {es : List FsEntry} {d : String} {sub : List FsEntry} {p : List String}
      (h : FsEntry.dir d sub ∈ es) (hp : IsFilePath sub p) : IsFilePath es (d :: p)

/-- The strings a format plugs into the shared batch-processing loop; the
PDF and Excel processors are line-for-line identical except for these. -/
structure FmtCfg where
  globPats : List String
  walkExts : List String
  docType : String
  displayName : String → String → String
  errLabel : String → String
  noDataStatus : String
  noFolderMsg : String → String
  noZipMsg : String

/-- `pdf_processor.py`: glob `*.pdf`, walk match `.pdf` (lowercased), the
table name is always `stem + ".pdf"`. -/
def pdfCfg : FmtCfg :=
  ⟨[".pdf"], [".pdf"], "PDF document",
   fun stem _ => stem ++ ".pdf",
   fun stem => stem ++ ".pdf",
   "❌ No text found",
   fun folder => "No PDF files found in folder: " ++ folder,
   "No PDF files found in the uploaded zip file."⟩

/-- `excel_processor.py`: globs `*.xlsx` then `*.xls`, walk match `.xlsx`
or `.xls` (lowercased), the table name keeps the real suffix. -/
def excelCfg : FmtCfg :=
  ⟨[".xlsx", ".xls"], [".xlsx", ".xls"], "Excel spreadsheet",
   fun stem suffix => stem ++ suffix,
   fun stem => stem,
   "❌ No data found",
   fun folder => "No Excel files found in folder: " ++ folder,
   "No Excel files found in the uploaded zip file."⟩

/-- Whether `glob.glob(folder + "/*" + pat)` matches a file name: the
suffix must match case-sensitively and glob skips hidden files. -/
def globMatch (pat name : String) : Bool := strEnds name pat && !(strStarts name ".")

/-- Directory-mode discovery (`glob.glob(os.path.join(folder_path, pat))`):
the immediate files of the folder matching each pattern, one pattern after
the other, non-recursively. -/
def globTop (cfg : FmtCfg) (es : List FsEntry) : List String :=
  cfg.globPats.flatMap (fun pat => (filesOf es).filter (globMatch pat))

/-- The zip walk's extension test: `file.lower().endswith(exts)`. -/
def walkMatch (cfg : FmtCfg) (name : String) : Bool :=
  cfg.walkExts.any (fun ext => strEnds (pyLower name) ext)

/-- Archive-mode discovery: every file of the decompressed tree, at any
depth, whose lowercased name ends with a target extension. -/
def zipLocate (cfg : FmtCfg) (es : List FsEntry) : List (List String) :=
  (walkPaths es).filter (fun p => walkMatch cfg (p.getLastD ""))

/-! ## The batch-processing loop -/

/-- One row of the `results` table (the dictionaries appended by the
processors). -/
structure FileOutcome where
  file_name : String
  json_file : String
  status : String
deriving Repr, DecidableEq

/-- What one loop iteration produces: its `results` row, its optional
`errors` entry and its optional JSON write (keyed by output file name). -/
structure StepRes where
  outcome : FileOutcome
  errEntry : Option String
  write : Option (String × Json)
deriving Repr

/-- The dictionary each processor returns. -/
structure BatchReport where
  success : Bool
  results : List FileOutcome
  errors : List String
  total_files : Nat
  files_found : List String
deriving Repr, DecidableEq

/-- The effectful surroundings of the loop: text extraction per located
path (the `extract_text_from_*_path` call, which may raise a ReadError),
and the JSON write per output file name (which may raise). -/
structure World where
  read : List String → Except String String
  persist : String → Except String Unit

/-- One iteration of the per-file loop (`pdf_processor.py` lines 57-102 and
152-197, `excel_processor.py` lines 95-140 and 192-237): read the file;
on any read or model exception record an error row and an `errors` entry;
on empty text record a no-data row without calling the model; otherwise
call the model and write the JSON, where a write exception is caught by the
inner handler. -/
def processOne (cfg : FmtCfg) (w : World) (gem : String → String → Except String Json)
    (path : List String) : StepRes :=
  let name := path.getLastD ""
  let stem := pyStem name
  let disp := cfg.displayName stem (pySuffix name)
  match w.read path with
  | .error e =>
      ⟨⟨disp, "N/A", "❌ Error: " ++ e⟩,
       some ("Error processing " ++ cfg.errLabel stem ++ ": " ++ e), none⟩
  | .ok text =>
      if pyStrip text ≠ "" then
        match gem text cfg.docType with
        | .error e =>
            ⟨⟨disp, "N/A", "❌ Error: " ++ e⟩,
             some ("Error processing " ++ cfg.errLabel stem ++ ": " ++ e), none⟩
        | .ok j =>
            let jf := stem ++ ".json"
            match w.persist jf with
            | .ok _ => ⟨⟨disp, jf, "✅ Success"⟩, none, some (jf, j)⟩
            | .error e =>
                ⟨⟨disp, jf, "❌ Error: " ++ e⟩,
                 some ("Error saving JSON for " ++ cfg.errLabel stem ++ ": " ++ e), none⟩
      else
        ⟨⟨disp, "N/A", cfg.noDataStatus⟩, none, none⟩

/-- The shared tail of both processors: return the single-error report when
no files were located, otherwise loop over the located files and aggregate
rows, errors and writes, with `success = (errors == [])`. -/
def runLocated (cfg : FmtCfg) (w : World) (gem : String → String → Except String Json)
    (paths : List (List String)) (found : List String) (emptyMsg : String) :
    BatchReport × List (String × Json) :=
  if paths.isEmpty then
    (⟨false, [], [emptyMsg], 0, []⟩, [])
  else
    let steps := paths.map (processOne cfg w gem)
    (⟨(steps.filterMap StepRes.errEntry).isEmpty,
      steps.map StepRes.outcome,
      steps.filterMap StepRes.errEntry,
      paths.length,
      found⟩,
     steps.filterMap StepRes.write)

/-- `process_pdf_folder` / `process_excel_folder`: non-recursive glob of the
folder, `files_found` being the glob results, i.e. the folder-joined paths. -/
def processFolder (cfg : FmtCfg) (folder : String) (es : List FsEntry) (w : World)
    (gem : String → String → Except String Json) : BatchReport × List (String × Json) :=
  let names := globTop cfg es
  runLocated cfg w gem (names.map (fun n => [n])) (names.map (fun n => folder ++ "/" ++ n))
    (cfg.noFolderMsg folder)

/-- `process_zip_file` / `process_excel_zip_file`: an invalid archive gives
the single-error report; otherwise the decompressed tree is walked
recursively and `files_found` holds the base names of the located files. -/
def processZip (cfg : FmtCfg) (payload : Except String (List FsEntry)) (w : World)
    (gem : String → String → Except String Json) : BatchReport × List (String × Json) :=
  match payload with
  | .error _ =>
      (⟨false, [], ["Invalid zip file. Please upload a valid zip archive."], 0, []⟩, [])
  | .ok es =>
      let paths := zipLocate cfg es
      runLocated cfg w gem paths (paths.map (fun p => p.getLastD "")) cfg.noZipMsg

/-- The value held by an output file after a sequence of writes: the last
write to that name wins, as later `open(..., "w")` calls overwrite. -/
def lastWrite (writes : List (String × Json)) (k : String) : Option Json :=
  (writes.reverse.find? (fun p => p.1 == k)).map (fun p => p.2)

/-! ## The spreadsheet normalizer (`excel_processor.py` lines 10-68) -/

/-- One sheet as `pandas.read_excel` delivers it: column names and rows,
each cell already rendered by `str(val)` or absent (`NaN`). -/
structure DataFrame where
  cols : List String
  rows : List (List (Option String))
deriving Repr, DecidableEq

/-- `df.empty`: true when either axis has length zero. -/
def DataFrame.isEmptyDf (df : DataFrame) : Bool := df.rows.isEmpty || df.cols.isEmpty

/-- Python `" | ".join(xs)`. -/
def barJoin : List String → String
  | [] => ""
  | [x] => x
  | x :: xs => x ++ " | " ++ barJoin xs

/-- Cell rendering: `str(val) if pd.notna(val) else ""`. -/
def cellText (c : Option String) : String := c.getD ""

/-- The row lines `ROW {index + 1}: ...` emitted from index `i` on. -/
def rowLinesFrom : Nat → List (List (Option String)) → String
  | _, [] => ""
  | i, r :: rs =>
      "ROW " ++ toString (i + 1) ++ ": " ++ barJoin (r.map cellText) ++ "\n" ++
        rowLinesFrom (i + 1) rs

/-- The text appended for one sheet: the boundary marker, then either the
column header and the numbered rows, or the empty-sheet marker. -/
def sheetText (name : String) (df : DataFrame) : String :=
  "\n=== SHEET: " ++ name ++ " ===\n" ++
    (if !df.isEmptyDf then
      "COLUMNS: " ++ barJoin df.cols ++ "\n" ++ rowLinesFrom 0 df.rows
    else "EMPTY SHEET\n")

/-- `extract_text_from_excel` / `extract_text_from_excel_path`: fold over
the workbook's sheets in order, appending each sheet's text. -/
def extract_text_from_excel (wb : List (String × DataFrame)) : String :=
  wb.foldl (fun acc p => acc ++ sheetText p.1 p.2) ""

/-! ## Specification-side rendering of the spreadsheet normalizer

These definitions follow the words of the specification (one boundary line
per sheet, a header line and one numbered line per row when the sheet has
rows, the empty-sheet marker otherwise) and are compared with the
source-embedded `extract_text_from_excel` in claim C7. -/

/-- Concatenation of a list of strings. -/
def strConcat : List String → String
  | [] => ""
  | s :: ss => s ++ strConcat ss

/-- A block of text lines, each terminated by a newline. -/
def linesBlock (ls : List String) : String := strConcat (ls.map (fun l => l ++ "\n"))

/-- The spec's row lines: one line per row, numbered consecutively starting
from `i + 1`, cells joined by the fixed delimiter with missing values as
empty strings. -/
def rowLinesSpec : Nat → List (List (Option String)) → List String
  | _, [] => []
  | i, r :: rs =>
      ("ROW " ++ toString (i + 1) ++ ": " ++ barJoin (r.map cellText)) :: rowLinesSpec (i + 1) rs

/-- The spec's lines for one sheet: boundary marker with the sheet name,
then either header plus rows numbered from 1, or the empty-sheet marker. -/
def sheetLinesSpec (name : String) (df : DataFrame) : List String :=
  ("=== SHEET: " ++ name ++ " ===") ::
    (if df.rows = [] then ["EMPTY SHEET"]
     else ("COLUMNS: " ++ barJoin df.cols) :: rowLinesSpec 0 df.rows)

/-- The spec's rendering of a workbook: each sheet's line block in workbook
order, each preceded by a blank separator line. -/
def renderSpec (wb : List (String × DataFrame)) : String :=
  strConcat (wb.map (fun p => "\n" ++ linesBlock (sheetLinesSpec p.1 p.2)))


/-! ## Helper lemmas -/

theorem marker_split : ("\n=== SHEET: " : String) = "\n" ++ "=== SHEET: " := rfl

theorem markerTail_split : (" ===\n" : String) = " ===" ++ "\n" := rfl

theorem emptySheet_split : ("EMPTY SHEET\n" : String) = "EMPTY SHEET" ++ "\n" := rfl

theorem strConcat_append (xs ys : List String) :
    strConcat (xs ++ ys) = strConcat xs ++ strConcat ys := by
  induction xs with
  | nil => simp [strConcat, String.empty_append]
  | cons x xs ih => simp [strConcat, ih, String.append_assoc]

theorem foldl_append_eq_strConcat (sf : String × DataFrame → String) :
    ∀ (wb : List (String × DataFrame)) (acc : String),
      wb.foldl (fun a p => a ++ sf p) acc = acc ++ strConcat (wb.map sf) := by
  intro wb
  induction wb with
  | nil => intro acc; simp [strConcat, String.append_empty]
  | cons p wb ih =>
      intro acc
      simp only [List.foldl_cons, List.map_cons, strConcat, ih, String.append_assoc]

theorem rowLinesFrom_eq_spec (rows : List (List (Option String))) :
    ∀ i, rowLinesFrom i rows = linesBlock (rowLinesSpec i rows) := by
  induction rows with
  | nil => intro i; simp [rowLinesFrom, rowLinesSpec, linesBlock, strConcat]
  | cons r rs ih =>
      intro i
      simp only [rowLinesFrom, rowLinesSpec, linesBlock, List.map_cons, strConcat, ih,
        String.append_assoc]

theorem sheetText_eq_spec (name : String) (df : DataFrame)
    (hwf : df.cols = [] → df.rows = []) :
    sheetText name df = "\n" ++ linesBlock (sheetLinesSpec name df) := by
  rcases hr : df.rows with _ | ⟨r, rs⟩
  · have : df.isEmptyDf = true := by simp [DataFrame.isEmptyDf, hr]
    simp only [sheetText, this, Bool.not_true, Bool.false_eq_true, if_false, sheetLinesSpec, hr,
      if_pos rfl, linesBlock, List.map_cons, List.map_nil, strConcat, String.append_assoc,
      String.append_empty]
    simp only [marker_split, markerTail_split, emptySheet_split, String.append_assoc]
  · have hc : df.cols ≠ [] := by
      intro h
      rw [hwf h] at hr
      cases hr
    have : df.isEmptyDf = false := by
      simp [DataFrame.isEmptyDf, hr, hc]
    simp only [sheetText, this, Bool.not_false, if_true, sheetLinesSpec, hr, linesBlock,
      List.map_cons, strConcat, rowLinesFrom_eq_spec, String.append_assoc, linesBlock]
    simp only [marker_split, markerTail_split, emptySheet_split, String.append_assoc]

/-! ## Claims about `extract_with_gemini` -/

/-- Claim C1: for every model completion, `extract_with_gemini` returns
exactly one of the two ExtractionResult shapes: the JSON value parsed from
the cleaned completion, or the ErrorRecord carrying the parse failure and
the cleaned text — never both, never neither. -/
theorem extract_shape_exclusive (s : String) :
    Xor' (∃ v, parseJson (cleanCompletion s) = .ok v ∧ extract_with_gemini s = v)
      (∃ e, parseJson (cleanCompletion s) = .error e ∧
        extract_with_gemini s = jsonErrorRecord e (cleanCompletion s)) := by
  cases h : parseJson (cleanCompletion s) with
  | error e =>
      refine Or.inr ⟨⟨e, rfl, ?_⟩, ?_⟩
      · simp [extract_with_gemini, h]
      · rintro ⟨v, hv, -⟩
        exact Except.noConfusion hv
  | ok v =>
      refine Or.inl ⟨⟨v, rfl, ?_⟩, ?_⟩
      · simp [extract_with_gemini, h]
      · rintro ⟨e, he, -⟩
        exact Except.noConfusion he

/-- Claim C4: a completion opening with a code fence has the backtick
delimiters stripped from both ends and a leading case-insensitive `json`
token (with surrounding whitespace) removed before parsing; in particular
the fenced completion containing the object with key `a` and value `1`
parses to that mapping, not to an ErrorRecord. -/
theorem fence_stripping :
    extract_with_gemini "\x60\x60\x60json\n\x7b\"a\":1\x7d\n\x60\x60\x60" =
      Json.obj [("a", Json.num "1")] ∧
    ∀ s, strStarts (pyStrip s) fenceTok = true →
      cleanCompletion s =
        (if strStarts (pyLower (stripTicks (pyStrip s))) "json"
         then pyStrip (strDrop (stripTicks (pyStrip s)) 4)
         else stripTicks (pyStrip s)) := by
  refine ⟨rfl, ?_⟩
  intro s h
  simp only [cleanCompletion, h, if_true]

/-- Witness for C4 at a concrete fenced completion without the token. -/
theorem fence_stripping_witness : cleanCompletion "\x60\x60\x60abc" = "abc" := by
  rw [fence_stripping.2 "\x60\x60\x60abc" rfl]
  rfl

/-- Claim C5: whenever the cleaned completion fails to parse, the result is
the ErrorRecord whose `error` field is the fixed prefix followed by the
parse error message and whose `raw` field is the cleaned string. -/
theorem malformed_output_error_record (s e : String)
    (h : parseJson (cleanCompletion s) = .error e) :
    extract_with_gemini s =
      Json.obj [("error", Json.str ("Failed to parse JSON: " ++ e)),
        ("raw", Json.str (cleanCompletion s))] := by
  simp [extract_with_gemini, h, jsonErrorRecord]

/-- Witness for C5 at the completion `"not json"`: the `raw` field is the
completion itself. -/
theorem malformed_output_error_record_witness :
    extract_with_gemini "not json" =
      Json.obj [("error", Json.str "Failed to parse JSON: Expecting value"),
        ("raw", Json.str "not json")] :=
  malformed_output_error_record "not json" "Expecting value" rfl

/-! ## Claim about the spreadsheet normalizer -/

/-- Claim C7: for every workbook (with the read-level invariant that a
sheet without columns has no rows, as `pandas.read_excel` guarantees), the
normalizer emits per sheet, in workbook order, a boundary line naming the
sheet followed either by the column-header line and one line per row
numbered from 1 — cells joined by the fixed delimiter, missing cells as
empty strings — or, for a sheet with zero rows, by the empty-sheet marker
line alone. -/
theorem excel_normalizer_layout (wb : List (String × DataFrame))
    (hwf : ∀ p ∈ wb, p.2.cols = [] → p.2.rows = []) :
    extract_text_from_excel wb = renderSpec wb := by
  unfold extract_text_from_excel renderSpec
  rw [foldl_append_eq_strConcat (fun p => sheetText p.1 p.2) wb "", String.empty_append]
  induction wb with
  | nil => rfl
  | cons p wb ih =>
      simp only [List.map_cons, strConcat]
      rw [sheetText_eq_spec p.1 p.2 (hwf p (by simp)),
        ih (fun q hq => hwf q (by simp [hq]))]

/-- Witness for C7: a workbook with one populated sheet and one zero-row
sheet renders to the expected concrete text. -/
theorem excel_normalizer_layout_witness :
    extract_text_from_excel [("Data", ⟨["A", "B"], [[some "1", none]]⟩), ("Empty", ⟨["X"], []⟩)] =
      "\n=== SHEET: Data ===\nCOLUMNS: A | B\nROW 1: 1 | \n\n=== SHEET: Empty ===\nEMPTY SHEET\n" := by
  rw [excel_normalizer_layout _ (by intro p hp; fin_cases hp <;> simp)]
  rfl

/-! ## Claims about the batch runner -/

/-- Claim C2: in a batch of three located files where reading the second
raises, the report counts all three files, carries exactly one error entry
and one outcome per file, and the first and third outcomes are exactly what
they would be in a batch without the failing file; the loop never
propagates a per-file exception. -/
theorem batch_isolation (cfg : FmtCfg) (w : World)
    (gem : String → String → Except String Json) (p1 p2 p3 : List String)
    (found found2 : List String) (msg msg2 : String)
    (t1 t3 : String) (j1 j3 : Json) (e : String)
    (hr1 : w.read p1 = .ok t1) (hs1 : pyStrip t1 ≠ "")
    (hg1 : gem t1 cfg.docType = .ok j1)
    (hp1 : w.persist (pyStem (p1.getLastD "") ++ ".json") = .ok ())
    (h2 : w.read p2 = .error e)
    (hr3 : w.read p3 = .ok t3) (hs3 : pyStrip t3 ≠ "")
    (hg3 : gem t3 cfg.docType = .ok j3)
    (hp3 : w.persist (pyStem (p3.getLastD "") ++ ".json") = .ok ()) :
    (runLocated cfg w gem [p1, p2, p3] found msg).1.total_files = 3 ∧
    (runLocated cfg w gem [p1, p2, p3] found msg).1.errors.length = 1 ∧
    (runLocated cfg w gem [p1, p2, p3] found msg).1.results.length = 3 ∧
    (runLocated cfg w gem [p1, p2, p3] found msg).1.results =
      [(processOne cfg w gem p1).outcome, (processOne cfg w gem p2).outcome,
        (processOne cfg w gem p3).outcome] ∧
    (runLocated cfg w gem [p1, p3] found2 msg2).1.results =
      [(processOne cfg w gem p1).outcome, (processOne cfg w gem p3).outcome] := by
  have n1 : (processOne cfg w gem p1).errEntry = none := by
    simp only [processOne, hr1]
    rw [if_pos hs1]
    simp only [hg1]
    simp only [hp1]
  have n3 : (processOne cfg w gem p3).errEntry = none := by
    simp only [processOne, hr3]
    rw [if_pos hs3]
    simp only [hg3]
    simp only [hp3]
  have s2 : (processOne cfg w gem p2).errEntry =
      some ("Error processing " ++ cfg.errLabel (pyStem (p2.getLastD "")) ++ ": " ++ e) := by
    simp [processOne, h2]
  refine ⟨by simp [runLocated], ?_, by simp [runLocated], by simp [runLocated],
    by simp [runLocated]⟩
  simp [runLocated, List.filterMap_cons, n1, n3, s2]

/-- A model-call stub returning JSON `null` for every document. -/
def gemNull : String → String → Except String Json := fun _ _ => .ok Json.null

/-- A world where only the file `b.pdf` fails to read. -/
def wIsolation : World :=
  ⟨fun p => if p = ["b.pdf"] then .error "boom" else .ok "text", fun _ => .ok ()⟩

/-- Witness for C2 at a concrete three-file batch whose middle file fails. -/
theorem batch_isolation_witness :
    (runLocated pdfCfg wIsolation gemNull [["a.pdf"], ["b.pdf"], ["c.pdf"]] [] "").1.errors.length = 1 ∧
    (runLocated pdfCfg wIsolation gemNull [["a.pdf"], ["b.pdf"], ["c.pdf"]] [] "").1.total_files = 3 := by
  have h := batch_isolation pdfCfg wIsolation gemNull ["a.pdf"] ["b.pdf"] ["c.pdf"] [] [] "" ""
    "text" "text" Json.null Json.null "boom" rfl (by decide) rfl rfl rfl rfl (by decide) rfl rfl
  exact ⟨h.2.1, h.1⟩

/-- Claim C3: for every batch — directory or archive source — the report's
`success` flag is true exactly when `errors` is empty, and the
zero-files-located and invalid-archive cases give a failed report with one
error entry and `total_files = 0`. -/
theorem report_success_iff_errors_empty :
    (∀ cfg folder es w gem,
      ((processFolder cfg folder es w gem).1.success = true ↔
        (processFolder cfg folder es w gem).1.errors = [])) ∧
    (∀ cfg payload w gem,
      ((processZip cfg payload w gem).1.success = true ↔
        (processZip cfg payload w gem).1.errors = [])) ∧
    (∀ cfg folder es w gem, globTop cfg es = [] →
      (processFolder cfg folder es w gem).1 =
        ⟨false, [], [cfg.noFolderMsg folder], 0, []⟩) ∧
    (∀ cfg es w gem, zipLocate cfg es = [] →
      (processZip cfg (.ok es) w gem).1 = ⟨false, [], [cfg.noZipMsg], 0, []⟩) ∧
    (∀ cfg err w gem,
      (processZip cfg (.error err) w gem).1 =
        ⟨false, [], ["Invalid zip file. Please upload a valid zip archive."], 0, []⟩) := by
  refine ⟨?_, ?_, ?_, ?_, ?_⟩
  · intro cfg folder es w gem
    simp only [processFolder, runLocated]
    split
    · simp
    · simp [List.isEmpty_iff]
  · intro cfg payload w gem
    cases payload with
    | error err => simp [processZip]
    | ok es =>
        simp only [processZip, runLocated]
        split
        · simp
        · simp [List.isEmpty_iff]
  · intro cfg folder es w gem h
    simp [processFolder, runLocated, h]
  · intro cfg es w gem h
    simp [processZip, runLocated, h]
  · intro cfg err w gem
    simp [processZip]

/-- Witness for C3 at a folder with no matching files. -/
theorem report_success_iff_errors_empty_witness :
    (processFolder pdfCfg "d" [] wIsolation gemNull).1 =
      ⟨false, [], ["No PDF files found in folder: d"], 0, []⟩ :=
  report_success_iff_errors_empty.2.2.1 pdfCfg "d" [] wIsolation gemNull rfl

/-- Claim C6: a located file whose text is empty or whitespace-only yields
the no-data outcome with output name `N/A`, contributes no error entry and
no write, its handling does not depend on the model function (no model call
is made), and the loop continues: surrounding files contribute exactly the
rows and errors they would contribute anyway. -/
theorem empty_text_no_data (cfg : FmtCfg) (w : World)
    (gem : String → String → Except String Json) (p : List String) (t : String)
    (hr : w.read p = .ok t) (hs : pyStrip t = "") :
    (processOne cfg w gem p).outcome =
      ⟨cfg.displayName (pyStem (p.getLastD "")) (pySuffix (p.getLastD "")), "N/A",
        cfg.noDataStatus⟩ ∧
    (processOne cfg w gem p).errEntry = none ∧
    (processOne cfg w gem p).write = none ∧
    (∀ gem2, processOne cfg w gem2 p = processOne cfg w gem p) ∧
    (∀ pre post found msg,
      (runLocated cfg w gem (pre ++ p :: post) found msg).1.results =
        pre.map (fun q => (processOne cfg w gem q).outcome) ++
          (processOne cfg w gem p).outcome ::
            post.map (fun q => (processOne cfg w gem q).outcome) ∧
      (runLocated cfg w gem (pre ++ p :: post) found msg).1.errors =
        pre.filterMap (fun q => (processOne cfg w gem q).errEntry) ++
          post.filterMap (fun q => (processOne cfg w gem q).errEntry)) := by
  have h0 : processOne cfg w gem p =
      ⟨⟨cfg.displayName (pyStem (p.getLastD "")) (pySuffix (p.getLastD "")), "N/A",
        cfg.noDataStatus⟩, none, none⟩ := by
    simp [processOne, hr, hs]
  refine ⟨by rw [h0], by rw [h0], by rw [h0], ?_, ?_⟩
  · intro gem2
    rw [h0]
    simp [processOne, hr, hs]
  · intro pre post found msg
    constructor <;>
      simp [runLocated, List.map_append, List.filterMap_append, h0, Function.comp_def]

/-- A world whose every file reads as whitespace. -/
def wBlank : World := ⟨fun _ => .ok "  \n ", fun _ => .ok ()⟩

/-- Witness for C6 at a concrete whitespace-only file. -/
theorem empty_text_no_data_witness :
    (processOne pdfCfg wBlank gemNull ["a.pdf"]).outcome =
      ⟨"a.pdf", "N/A", "❌ No text found"⟩ :=
  (empty_text_no_data pdfCfg wBlank gemNull ["a.pdf"] "  \n " rfl (by decide)).1

/-- A file name in a directory level belongs to `filesOf` it. -/
theorem mem_filesOf {es : List FsEntry} {n : String} (h : FsEntry.file n ∈ es) :
    n ∈ filesOf es :=
  List.mem_filterMap.2 ⟨FsEntry.file n, h, rfl⟩

/-- A path into a subdirectory of a level is produced by `dirsWalk`. -/
theorem mem_dirsWalk {es : List FsEntry} {d : String} {sub : List FsEntry} {q : List String}
    (h : FsEntry.dir d sub ∈ es) (hq : q ∈ walkPaths sub) : (d :: q) ∈ dirsWalk es := by
  induction es with
  | nil => cases h
  | cons e es ih =>
      rcases List.mem_cons.1 h with he | he
      · subst he
        exact List.mem_append_left _ (List.mem_map.2 ⟨q, hq, rfl⟩)
      · exact List.mem_append_right _ (ih he)

/-- Every file of the tree, at any depth, appears in the recursive walk. -/
theorem isFilePath_mem_walkPaths {es : List FsEntry} {p : List String}
    (h : IsFilePath es p) : p ∈ walkPaths es := by
  induction h with
  | here hmem => exact List.mem_append_left _ (List.mem_map.2 ⟨_, mem_filesOf hmem, rfl⟩)
  | nested hmem hp ih => exact List.mem_append_right _ (mem_dirsWalk hmem ih)

/-- Claim C8: archive mode discovers every matching file of the
decompressed tree regardless of depth, while directory mode discovers only
immediate files of the folder — a matching file nested in a subdirectory is
not discovered there. -/
theorem archive_recursive_dir_flat :
    (∀ cfg es p, IsFilePath es p → walkMatch cfg (p.getLastD "") = true →
      p ∈ zipLocate cfg es) ∧
    (∀ cfg es n, n ∈ globTop cfg es → FsEntry.file n ∈ es) ∧
    (∀ cfg es p, IsFilePath es p → 2 ≤ p.length →
      p ∉ (globTop cfg es).map (fun n => [n])) := by
  refine ⟨?_, ?_, ?_⟩
  · intro cfg es p hp hm
    exact List.mem_filter.2 ⟨isFilePath_mem_walkPaths hp, hm⟩
  · intro cfg es n hn
    rcases List.mem_flatMap.1 hn with ⟨pat, hpat, hmem⟩
    rcases List.mem_filter.1 hmem with ⟨hfile, -⟩
    rcases List.mem_filterMap.1 hfile with ⟨en, he, hsome⟩
    cases en with
    | file m =>
        cases hsome
        exact he
    | dir n2 sub => cases hsome
  · intro cfg es p hp hlen hmem
    rcases List.mem_map.1 hmem with ⟨n, -, rfl⟩
    simp at hlen

/-- A tree whose only matching file sits two directories deep. -/
def esNested : List FsEntry := [FsEntry.dir "a" [FsEntry.dir "b" [FsEntry.file "x.pdf"]]]

/-- Witness for C8: the doubly nested file is discovered by the archive
walk and missed by the directory glob. -/
theorem archive_recursive_dir_flat_witness :
    ["a", "b", "x.pdf"] ∈ zipLocate pdfCfg esNested ∧
    ["a", "b", "x.pdf"] ∉ (globTop pdfCfg esNested).map (fun n => [n]) :=
  ⟨archive_recursive_dir_flat.1 pdfCfg esNested ["a", "b", "x.pdf"]
      (.nested (List.mem_cons_self _ _)
        (.nested (List.mem_cons_self _ _) (.here (List.mem_cons_self _ _)))) rfl,
    archive_recursive_dir_flat.2.2 pdfCfg esNested ["a", "b", "x.pdf"]
      (.nested (List.mem_cons_self _ _)
        (.nested (List.mem_cons_self _ _) (.here (List.mem_cons_self _ _)))) (by decide)⟩

/-- A world where every read succeeds and every write succeeds. -/
def wOk : World := ⟨fun _ => .ok "text", fun _ => .ok ()⟩

/-- A one-file folder. -/
def esFlat : List FsEntry := [FsEntry.file "a.pdf"]

/-- Counterexample to C9 as stated: for the same located file `a.pdf`, a
directory batch records the folder-joined path in `files_found` while an
archive batch records only the base name — the naming convention is not
the same across the two modes. -/
theorem files_found_naming_counterexample :
    (processFolder pdfCfg "docs" esFlat wOk gemNull).1.files_found = ["docs/a.pdf"] ∧
    (processZip pdfCfg (.ok esFlat) wOk gemNull).1.files_found = ["a.pdf"] ∧
    ("docs/a.pdf" : String) ≠ "a.pdf" :=
  ⟨rfl, rfl, by decide⟩

/-- Claim C9 as amended: `files_found` has one entry per located file in
discovery order and `total_files` equals its length, but the naming
convention differs by mode: directory mode records the folder-joined path
of each located file, archive mode records only its base name. -/
theorem files_found_per_mode :
    (∀ cfg folder es w gem, globTop cfg es ≠ [] →
      (processFolder cfg folder es w gem).1.files_found =
        (globTop cfg es).map (fun n => folder ++ "/" ++ n) ∧
      (processFolder cfg folder es w gem).1.total_files = (globTop cfg es).length) ∧
    (∀ cfg es w gem, zipLocate cfg es ≠ [] →
      (processZip cfg (.ok es) w gem).1.files_found =
        (zipLocate cfg es).map (fun p => p.getLastD "") ∧
      (processZip cfg (.ok es) w gem).1.total_files = (zipLocate cfg es).length) := by
  constructor
  · intro cfg folder es w gem h
    have hne : ((globTop cfg es).map (fun n => ([n] : List String))).isEmpty = false := by
      simp [List.isEmpty_iff, h]
    constructor <;> simp [processFolder, runLocated, hne]
  · intro cfg es w gem h
    have hne : (zipLocate cfg es).isEmpty = false := by
      simp [List.isEmpty_iff, h]
    constructor <;> simp [processZip, runLocated, hne]

/-- Witness for the amended C9 at a one-file folder. -/
theorem files_found_per_mode_witness :
    (processFolder pdfCfg "docs" esFlat wOk gemNull).1.total_files = 1 := by
  rw [(files_found_per_mode.1 pdfCfg "docs" esFlat wOk gemNull (by decide)).2]
  rfl

/-- An archive holding two files with the same base name in different
subdirectories. -/
def esDup : List FsEntry :=
  [FsEntry.dir "sub1" [FsEntry.file "a.pdf"], FsEntry.dir "sub2" [FsEntry.file "a.pdf"]]

/-- Claim C10: the persisted output key is the base name with the extension
stripped, ignoring directories; hence an archive with `sub1/a.pdf` and
`sub2/a.pdf`, both succeeding, reports two Success rows with the same
output file `a.json`, performs two writes to that key, and the later write
wins. -/
theorem duplicate_basename_overwrite (w : World)
    (gem : String → String → Except String Json) (t1 t2 : String) (j1 j2 : Json)
    (hr1 : w.read ["sub1", "a.pdf"] = .ok t1) (hs1 : pyStrip t1 ≠ "")
    (hg1 : gem t1 "PDF document" = .ok j1)
    (hr2 : w.read ["sub2", "a.pdf"] = .ok t2) (hs2 : pyStrip t2 ≠ "")
    (hg2 : gem t2 "PDF document" = .ok j2)
    (hp : w.persist "a.json" = .ok ()) :
    (processZip pdfCfg (.ok esDup) w gem).1.results =
      [⟨"a.pdf", "a.json", "✅ Success"⟩, ⟨"a.pdf", "a.json", "✅ Success"⟩] ∧
    (processZip pdfCfg (.ok esDup) w gem).2 = [("a.json", j1), ("a.json", j2)] ∧
    lastWrite (processZip pdfCfg (.ok esDup) w gem).2 "a.json" = some j2 ∧
    (∀ cfg2 w2 gem2 q, (processOne cfg2 w2 gem2 q).write = none ∨
      ∃ jq, (processOne cfg2 w2 gem2 q).write =
        some (pyStem (q.getLastD "") ++ ".json", jq)) := by
  have hn1 : (["sub1", "a.pdf"] : List String).getLastD "" = "a.pdf" := rfl
  have hn2 : (["sub2", "a.pdf"] : List String).getLastD "" = "a.pdf" := rfl
  have hstem : pyStem "a.pdf" = "a" := rfl
  have hsuf : pySuffix "a.pdf" = ".pdf" := rfl
  have happJson : ("a" : String) ++ ".json" = "a.json" := rfl
  have happPdf : ("a" : String) ++ ".pdf" = "a.pdf" := rfl
  have o1 : processOne pdfCfg w gem ["sub1", "a.pdf"] =
      ⟨⟨"a.pdf", "a.json", "✅ Success"⟩, none, some ("a.json", j1)⟩ := by
    simp only [processOne, hn1, hstem, hsuf, happJson, happPdf, pdfCfg, hr1]
    rw [if_pos hs1]
    simp only [hg1, hp]
  have o2 : processOne pdfCfg w gem ["sub2", "a.pdf"] =
      ⟨⟨"a.pdf", "a.json", "✅ Success"⟩, none, some ("a.json", j2)⟩ := by
    simp only [processOne, hn2, hstem, hsuf, happJson, happPdf, pdfCfg, hr2]
    rw [if_pos hs2]
    simp only [hg2, hp]
  have hz : zipLocate pdfCfg esDup = [["sub1", "a.pdf"], ["sub2", "a.pdf"]] := rfl
  refine ⟨?_, ?_, ?_, ?_⟩
  · simp [processZip, hz, runLocated, o1, o2]
  · simp [processZip, hz, runLocated, o1, o2]
  · simp [processZip, hz, runLocated, o1, o2, lastWrite]
  · intro cfg2 w2 gem2 q
    rcases hq : w2.read q with e | t <;> simp only [processOne, hq]
    · simp
    · by_cases ht : pyStrip t ≠ ""
      · rw [if_pos ht]
        rcases hg : gem2 t cfg2.docType with e2 | j3 <;> simp only [hg]
        · simp
        · rcases hpq : w2.persist (pyStem (q.getLastD "") ++ ".json") with e3 | u <;>
            simp only [hpq]
          · simp
          · exact Or.inr ⟨j3, rfl⟩
      · rw [if_neg ht]
        simp

/-- A world distinguishing the two duplicate-named files by their text. -/
def wDup : World :=
  ⟨fun p => if p = ["sub1", "a.pdf"] then .ok "one" else .ok "two", fun _ => .ok ()⟩

/-- A model-call stub echoing the document text. -/
def gemEcho : String → String → Except String Json := fun t _ => .ok (Json.str t)

/-- Witness for C10: the surviving value under `a.json` comes from the
second file. -/
theorem duplicate_basename_overwrite_witness :
    lastWrite (processZip pdfCfg (.ok esDup) wDup gemEcho).2 "a.json" = some (Json.str "two") :=
  (duplicate_basename_overwrite wDup gemEcho "one" "two" (Json.str "one") (Json.str "two")
    rfl (by decide) rfl rfl (by decide) rfl rfl).2.2.1
